import Mathlib

/-!
Verification of the quote-ranking / recommendation subsystem of the
fastify-quotes-service repository.

The development shallowly embeds the in-memory data model
(`InMemoryQuoteRepository`) and the service logic of
`AdvancedQuoteServiceImpl` as pure Lean functions over an explicit
`ServiceState`.  JavaScript numbers are modelled as `ℚ` (all scoring
arithmetic: weights 0.3 / 0.2 / 0.5, divisions, `Math.min`), timestamps as
`Int` milliseconds, and JS `Map`s as association lists in insertion order
(`Map.set` on an existing key keeps its position, a new key is appended).
Thrown exceptions are modelled with `Except String`.  The unobserved
`details` field of activity events and the unread date fields of quotes are
omitted from the records.
-/

/-- A quote record (`Quote` in `domain/models/Quote.ts`); the optional
date fields are never read by the analysed logic and are omitted. -/
structure Quote where
  id : String
  content : String
  author : String
  tags : List String
  length : Option Nat := none
  deriving DecidableEq

/-- A like row (`QuoteLike`): at most one per (quoteId, userId) pair is the
invariant under scrutiny.  Timestamps are epoch milliseconds. -/
structure QuoteLike where
  quoteId : String
  userId : String
  timestamp : Int
  deriving DecidableEq

/-- An entry of the append-only activity log (`ActivityEvent`). -/
structure ActivityEvent where
  type : String
  quoteId : String
  userId : Option String
  timestamp : Int
  deriving DecidableEq

/-- Per-user preference record (`UserPreferences`). -/
structure UserPreferences where
  userId : String
  favoriteAuthors : List String
  favoriteTags : List String
  likedQuotes : List String
  createdAt : Int
  deriving DecidableEq

/-- A report row stored by `reportQuote`. -/
structure Report where
  quoteId : String
  reason : String
  userId : String
  timestamp : Int
  deriving DecidableEq

/-- A user-owned quote collection (`QuoteCollection`). -/
structure QuoteCollection where
  id : String
  name : String
  description : Option String
  quotes : List Quote
  createdAt : Int
  updatedAt : Int
  isPublic : Bool
  likes : Nat
  userId : String
  deriving DecidableEq

/-- The combined state of the `InMemoryQuoteRepository` (quotes, likes) and
of `AdvancedQuoteServiceImpl`'s private maps.  `hasPubsub` records whether
the service instance was constructed with the optional `pubsub`. -/
structure ServiceState where
  quotes : List Quote
  likes : List QuoteLike
  userPreferences : List (String × UserPreferences)
  collections : List (String × QuoteCollection)
  activityLog : List ActivityEvent
  shareLinks : List (String × String)
  reports : List Report
  hasPubsub : Bool
  deriving DecidableEq

/-! ### Domain constants (`DOMAIN_CONSTANTS`) -/

def QUOTE_NOT_FOUND : String := "Quote not found"

def QUOTE_COMPARISON_MIN : String := "At least 2 valid quotes required for comparison"

def NEW_QUOTE_ADDED : String := "NEW_QUOTE_ADDED"

def QUOTE_LIKED : String := "QUOTE_LIKED"

def QUOTE_UNLIKED : String := "QUOTE_UNLIKED"

def QUOTE_SHARED : String := "QUOTE_SHARED"

def QUOTE_REPORTED : String := "QUOTE_REPORTED"

/-- One day of milliseconds; the trending window. -/
def DAY_MS : Int := 24 * 60 * 60 * 1000

/-! ### Repository operations (`InMemoryQuoteRepository`) -/

/-- `quotes.get(id)`: the quotes map keyed by id. -/
def getQuoteById (s : ServiceState) (id : String) : Option Quote :=
  s.quotes.find? (fun q => q.id == id)

/-- `Array.from(this.quotes.values())` in insertion order. -/
def getAllQuotes (s : ServiceState) : List Quote :=
  s.quotes

/-- `this.likes.get(quoteId) || []`: the like rows of one quote, in
insertion order. -/
def getLikesByQuoteId (s : ServiceState) (quoteId : String) : List QuoteLike :=
  s.likes.filter (fun l => l.quoteId == quoteId)

/-- `quoteLikes.find(like => like.userId === userId) || null`. -/
def getUserLikeForQuote (s : ServiceState) (quoteId userId : String) : Option QuoteLike :=
  (getLikesByQuoteId s quoteId).find? (fun l => l.userId == userId)

/-- `saveQuote`: `Map.set` keyed by `quote.id` — replace in place if the id
is present, append otherwise. -/
def saveQuote (s : ServiceState) (q : Quote) : ServiceState :=
  if s.quotes.any (fun x => x.id == q.id) then
    { s with quotes := s.quotes.map (fun x => if x.id == q.id then q else x) }
  else
    { s with quotes := s.quotes ++ [q] }

/-- `addLike`: push the row only when `findIndex` over the quote's like list
finds no row with the same user (idempotent add). -/
def addLike (s : ServiceState) (like : QuoteLike) : ServiceState :=
  if (s.likes.filter (fun l => l.quoteId == like.quoteId)).any
      (fun l => l.userId == like.userId) then s
  else { s with likes := s.likes ++ [like] }

/-- `removeLike`: filter the quote's like list down to other users. -/
def removeLike (s : ServiceState) (quoteId userId : String) : ServiceState :=
  { s with likes := s.likes.filter (fun l => !(l.quoteId == quoteId && l.userId == userId)) }

/-! ### Text similarity scorer -/

/-- `toLowerCase()` (ASCII model), written over the character list so the
kernel can evaluate it. -/
def lowerStr (s : String) : String :=
  String.mk (s.toList.map Char.toLower)

/-- Split a character list at every character satisfying `p`, keeping the
(possibly empty) pieces in between — the semantics of a JS `split`. -/
def splitChars (p : Char → Bool) : List Char → List (List Char)
  | [] => [[]]
  | c :: cs =>
    let rest := splitChars p cs
    if p c then [] :: rest
    else
      match rest with
      | [] => [[c]]
      | w :: ws => (c :: w) :: ws

/-- The regex replace `[^\w\s] → ' '` on one (already lowercased)
character: word characters and whitespace survive, all else becomes a
space. -/
def replaceNonWord (c : Char) : Char :=
  if c.isAlphanum || c == '_' || c.isWhitespace then c else ' '

/-- `extractWords`: lowercase, strip non-word non-space characters, split
on whitespace, keep tokens longer than `MIN_WORD_LENGTH = 2`. -/
def extractWords (text : String) : List String :=
  ((splitChars Char.isWhitespace ((lowerStr text).toList.map replaceNonWord)).map
    String.mk).filter (fun w => w.length > 2)

/-- The `Math.max(a, b, 1)` denominator floor used by the scorer. -/
def maxDenom (a b : Nat) : Nat :=
  max (max a b) 1

/-- `calculateSimilarity`: author match (weight 0.3, case-insensitive) +
tag overlap (weight 0.2, case-insensitive, counted from `quote1`'s side) +
significant-word overlap (weight 0.5, counted from `quote1`'s side). -/
def calculateSimilarity (quote1 quote2 : Quote) : ℚ :=
  let words1 := extractWords quote1.content
  let words2 := extractWords quote2.content
  let authorMatch : ℚ :=
    if lowerStr quote1.author == lowerStr quote2.author then 3/10 else 0
  let tagIntersection :=
    (quote1.tags.filter (fun tag =>
      quote2.tags.any (fun tag2 => lowerStr tag2 == lowerStr tag))).length
  let tagSimilarity : ℚ :=
    ((tagIntersection : ℚ) / (maxDenom quote1.tags.length quote2.tags.length : ℚ)) * (2/10)
  let commonWords := (words1.filter (fun word => words2.contains word)).length
  let wordSimilarity : ℚ :=
    ((commonWords : ℚ) / (maxDenom words1.length words2.length : ℚ)) * (5/10)
  authorMatch + tagSimilarity + wordSimilarity

/-! ### Ranking scores -/

/-- `calculatePopularityScore`: `min(likes / 10, 1.0)`. -/
def calculatePopularityScore (likes : Nat) : ℚ :=
  min ((likes : ℚ) / 10) 1

/-- `calculateTrendingScore`: count `QUOTE_LIKED` events for the quote whose
timestamp is strictly inside the trailing 24-hour window, then
`min(count / 5, 1.0)`. -/
def calculateTrendingScore (log : List ActivityEvent) (now : Int) (quoteId : String) : ℚ :=
  let recentLikes :=
    (log.filter (fun e =>
      e.type == QUOTE_LIKED && e.quoteId == quoteId &&
        decide (e.timestamp > now - DAY_MS))).length
  min ((recentLikes : ℚ) / 5) 1

/-! ### Stable descending sort (JS `Array.prototype.sort` with comparator
`(a, b) => keyB - keyA`; ES2019 sort is stable, and a stable sort by a
total preorder has a unique result, realised here by insertion sort) -/

/-- Stable sort, descending by `key`. -/
def sortDescBy {α β : Type} [LinearOrder β] (key : α → β) (l : List α) : List α :=
  l.insertionSort (fun a b => key b ≤ key a)

theorem sortDescBy_perm {α β : Type} [LinearOrder β] (key : α → β) (l : List α) :
    (sortDescBy key l).Perm l :=
  List.perm_insertionSort _ l

theorem sortDescBy_sorted {α β : Type} [LinearOrder β] (key : α → β) (l : List α) :
    (sortDescBy key l).Pairwise (fun a b => key b ≤ key a) := by
  haveI : IsTotal α (fun a b => key b ≤ key a) := ⟨fun a b => le_total (key b) (key a)⟩
  haveI : IsTrans α (fun a b => key b ≤ key a) := ⟨fun a b c hab hbc => le_trans hbc hab⟩
  exact List.sorted_insertionSort _ l

theorem sortDescBy_mem {α β : Type} [LinearOrder β] (key : α → β) (l : List α) (x : α) :
    x ∈ sortDescBy key l ↔ x ∈ l :=
  (sortDescBy_perm key l).mem_iff

theorem sortDescBy_length {α β : Type} [LinearOrder β] (key : α → β) (l : List α) :
    (sortDescBy key l).length = l.length :=
  (sortDescBy_perm key l).length_eq

/-- Everything kept by a truncation of the sorted list dominates everything
dropped by it. -/
theorem sortDescBy_take_dominates {α β : Type} [LinearOrder β] (key : α → β) (l : List α)
    (n : Nat) :
    ∀ x ∈ (sortDescBy key l).take n, ∀ y ∈ (sortDescBy key l).drop n, key y ≤ key x := by
  have hs := sortDescBy_sorted key l
  rw [← List.take_append_drop n (sortDescBy key l), List.pairwise_append] at hs
  exact hs.2.2

/-! ### Service operations (`AdvancedQuoteServiceImpl`) -/

/-- `publishActivity`: the only site appending to the activity log, guarded
by the optional pubsub (the fan-out to subscribers is an external side
effect and is not part of the state). -/
def publishActivity (s : ServiceState) (type quoteId : String) (userId : Option String)
    (now : Int) : ServiceState :=
  if s.hasPubsub then
    { s with activityLog := s.activityLog ++ [⟨type, quoteId, userId, now⟩] }
  else s

/-- `likeQuote`: `QuoteNotFound` when the id does not resolve; an early
successful return when the user already likes the quote; otherwise add the
row and publish `QUOTE_LIKED`. -/
def likeQuote (s : ServiceState) (quoteId userId : String) (now : Int) :
    Except String ServiceState :=
  match getQuoteById s quoteId with
  | none => .error QUOTE_NOT_FOUND
  | some _ =>
    match getUserLikeForQuote s quoteId userId with
    | some _ => .ok s
    | none =>
      .ok (publishActivity (addLike s ⟨quoteId, userId, now⟩) QUOTE_LIKED quoteId
        (some userId) now)

/-- `unlikeQuote`: unconditionally remove (a no-op when absent) and publish
`QUOTE_UNLIKED`. -/
def unlikeQuote (s : ServiceState) (quoteId userId : String) (now : Int) : ServiceState :=
  publishActivity (removeLike s quoteId userId) QUOTE_UNLIKED quoteId (some userId) now

/-- A quote enriched with read-time stats (`QuoteWithStats`). -/
structure QuoteWithStats where
  id : String
  content : String
  author : String
  tags : List String
  length : Option Nat
  likes : Nat
  likedByCurrentUser : Bool
  popularityScore : ℚ
  trendingScore : ℚ
  deriving DecidableEq

/-- `enrichQuoteWithStats`: recomputed on every read from the current Like
set and Activity Log. -/
def enrichQuoteWithStats (s : ServiceState) (q : Quote) (userId : Option String)
    (now : Int) : QuoteWithStats :=
  let likes := getLikesByQuoteId s q.id
  let likedByCurrentUser :=
    match userId with
    | some u => (getUserLikeForQuote s q.id u).isSome
    | none => false
  ⟨q.id, q.content, q.author, q.tags, q.length, likes.length, likedByCurrentUser,
    calculatePopularityScore likes.length, calculateTrendingScore s.activityLog now q.id⟩

/-- The `similarities` pipeline of `getSimilarQuotes`: drop the target,
score every other stored quote against it, sort descending, truncate. -/
def getSimilarQuotesScored (s : ServiceState) (quoteId : String) (limit : Nat) :
    List (Quote × ℚ) :=
  match getQuoteById s quoteId with
  | none => []
  | some targetQuote =>
    (sortDescBy (fun p => p.2)
      (((getAllQuotes s).filter (fun q => !(q.id == quoteId))).map
        (fun q => (q, calculateSimilarity targetQuote q)))).take limit

/-- `getSimilarQuotes`: empty (not an error) for an unresolved target,
otherwise the scored pipeline enriched. -/
def getSimilarQuotes (s : ServiceState) (quoteId : String) (limit : Nat)
    (userId : Option String) (now : Int) : List QuoteWithStats :=
  (getSimilarQuotesScored s quoteId limit).map
    (fun p => enrichQuoteWithStats s p.1 userId now)

/-- Substring test on character lists (JS `String.prototype.includes`). -/
def containsSub (hay term : String) : Bool :=
  hay.toList.tails.any (fun t => term.toList.isPrefixOf t)

/-- `trim()` over the character list, so the kernel can evaluate it. -/
def trimStr (s : String) : String :=
  String.mk (((s.toList.dropWhile Char.isWhitespace).reverse.dropWhile
    Char.isWhitespace).reverse)

/-- The per-quote search predicate: case-insensitive substring match on
content, author, or any tag. -/
def matchesQuery (searchTerm : String) (q : Quote) : Bool :=
  containsSub (lowerStr q.content) searchTerm ||
  containsSub (lowerStr q.author) searchTerm ||
  q.tags.any (fun tag => containsSub (lowerStr tag) searchTerm)

/-- The filter step of `searchQuotes`: a missing, empty or all-whitespace
query leaves the store unfiltered. -/
def searchFiltered (s : ServiceState) (query : Option String) : List Quote :=
  match query with
  | none => getAllQuotes s
  | some qs =>
    if (trimStr qs).length > 0 then
      (getAllQuotes s).filter (matchesQuery (trimStr (lowerStr qs)))
    else getAllQuotes s

/-- `searchQuotes` up to enrichment: filter, pair every survivor with its
current like count, sort descending by that count, truncate. -/
def searchQuotesRanked (s : ServiceState) (query : Option String) (limit : Nat) :
    List (Quote × Nat) :=
  (sortDescBy (fun p => p.2)
    ((searchFiltered s query).map
      (fun q => (q, (getLikesByQuoteId s q.id).length)))).take limit

/-- `searchQuotes`. -/
def searchQuotes (s : ServiceState) (query : Option String) (limit : Nat)
    (userId : Option String) (now : Int) : List QuoteWithStats :=
  (searchQuotesRanked s query limit).map (fun p => enrichQuoteWithStats s p.1 userId now)

/-! ### Quote comparison (`compareQuotes`) -/

/-- `[...new Set(xs)]`: JS `Set` keeps first occurrences in insertion
order. -/
def dedupFirstGo (seen : List String) : List String → List String
  | [] => []
  | x :: xs =>
    if seen.contains x then dedupFirstGo seen xs
    else x :: dedupFirstGo (x :: seen) xs

/-- De-duplicate a string list keeping the first occurrence of each
value. -/
def dedupFirstStr (l : List String) : List String :=
  dedupFirstGo [] l

/-- `q.length || q.content.length`: the stored length when present (it is
positive by schema), else the content's length. -/
def quoteLen (q : Quote) : Nat :=
  q.length.getD q.content.length

/-- `Math.max(...lengths)` over a list (`0` on the empty list, which the
call sites never produce). -/
def listMax (l : List Nat) : Nat :=
  l.foldl max 0

/-- `Math.min(...lengths)` over a list. -/
def listMin (l : List Nat) : Nat :=
  match l with
  | [] => 0
  | x :: xs => xs.foldl min x

/-- One pairwise similarity entry of a comparison. -/
structure SimEntry where
  field : String
  score : ℚ
  description : String
  deriving DecidableEq

/-- The bucketed `High`/`Medium`/`Low` description string. -/
def simDescription (similarity : ℚ) : String :=
  (if similarity > 7/10 then "High" else if similarity > 4/10 then "Medium" else "Low") ++
    " similarity in content and themes"

/-- The entry pushed for one pair inside `calculateQuoteSimilarities`. -/
def mkSimEntry (q1 q2 : Quote) : SimEntry :=
  ⟨"content", calculateSimilarity q1 q2, simDescription (calculateSimilarity q1 q2)⟩

/-- `calculateQuoteSimilarities`: the double loop `i < j` over the valid
quotes, one entry per unordered pair. -/
def calculateQuoteSimilarities : List Quote → List SimEntry
  | [] => []
  | q :: rest => rest.map (mkSimEntry q) ++ calculateQuoteSimilarities rest

/-- One difference entry of a comparison. -/
structure DiffEntry where
  field : String
  values : List String
  description : String
  deriving DecidableEq

/-- `calculateQuoteDifferences`: the author set when more than one author,
and the length spread when its range exceeds 50. -/
def calculateQuoteDifferences (quotes : List Quote) : List DiffEntry :=
  let authors := dedupFirstStr (quotes.map (fun q => q.author))
  let authorDiffs : List DiffEntry :=
    if authors.length > 1 then
      [⟨"author", authors,
        "Quotes from " ++ toString authors.length ++ " different authors"⟩]
    else []
  let lengths := quotes.map quoteLen
  let lengthDiffs : List DiffEntry :=
    if listMax lengths - listMin lengths > 50 then
      [⟨"length", lengths.map (fun l => toString l ++ " chars"),
        "Significant variation in quote lengths (" ++ toString (listMin lengths) ++ "-" ++
          toString (listMax lengths) ++ " characters)"⟩]
    else []
  authorDiffs ++ lengthDiffs

/-- `generateComparisonRecommendation`: bucket the average pairwise
similarity. -/
def generateComparisonRecommendation (similarities : List SimEntry) : String :=
  let avgSimilarity := (similarities.map (fun e => e.score)).sum / (similarities.length : ℚ)
  if avgSimilarity > 7/10 then
    "These quotes are very similar and would work well together in a themed collection."
  else if avgSimilarity > 4/10 then
    "These quotes have moderate similarities and could complement each other in a diverse collection."
  else
    "These quotes are quite different and would provide good variety in a collection."

/-- `calculateOverallSimilarity`: the average pairwise similarity, `0` when
there are no pairs. -/
def calculateOverallSimilarity (similarities : List SimEntry) : ℚ :=
  if similarities.length > 0 then
    (similarities.map (fun e => e.score)).sum / (similarities.length : ℚ)
  else 0

/-- The optional metrics block of a comparison. -/
structure CompMetrics where
  averageLength : ℚ
  averageLikes : ℚ
  commonTags : List String
  authorDiversity : ℚ
  deriving DecidableEq

/-- `calculateComparisonMetrics`. -/
def calculateComparisonMetrics (quotes : List Quote) : CompMetrics :=
  let lengths := quotes.map quoteLen
  let uniqueTags := dedupFirstStr (quotes.foldr (fun q acc => q.tags ++ acc) [])
  let authors := dedupFirstStr (quotes.map (fun q => q.author))
  ⟨(lengths.sum : ℚ) / (lengths.length : ℚ), 0,
    uniqueTags.filter (fun tag =>
      (quotes.filter (fun q => q.tags.contains tag)).length > 1),
    (authors.length : ℚ) / (quotes.length : ℚ)⟩

/-- The value resolved by a successful `compareQuotes` call. -/
structure ComparisonResult where
  quotes : List Quote
  similarities : List SimEntry
  differences : List DiffEntry
  recommendation : String
  overallSimilarity : ℚ
  metrics : Option CompMetrics
  deriving DecidableEq

/-- `compareQuotes`: resolve the ids, fail when fewer than 2 resolve, else
analyse the resolved quotes. -/
def compareQuotes (s : ServiceState) (quoteIds : List String) (includeMetrics : Bool) :
    Except String ComparisonResult :=
  let validQuotes := quoteIds.filterMap (getQuoteById s)
  if validQuotes.length < 2 then .error QUOTE_COMPARISON_MIN
  else
    let similarities := calculateQuoteSimilarities validQuotes
    .ok ⟨validQuotes, similarities, calculateQuoteDifferences validQuotes,
      generateComparisonRecommendation similarities,
      calculateOverallSimilarity similarities,
      if includeMetrics then some (calculateComparisonMetrics validQuotes) else none⟩

/-! ### Recommendation engine -/

/-- One recommendation entry `{quote, score, reason, confidence}`. -/
structure RecEntry where
  quote : Quote
  score : ℚ
  reason : String
  confidence : ℚ
  deriving DecidableEq

/-- The value read by `getUserPreferences`: the stored record, or the fresh
empty-default record that the call lazily inserts. -/
def getUserPreferencesVal (s : ServiceState) (userId : String) (now : Int) :
    UserPreferences :=
  match s.userPreferences.find? (fun e => e.1 == userId) with
  | some e => e.2
  | none => ⟨userId, [], [], [], now⟩

/-- `getUserLikedQuotes`: ids of stored quotes the user has a like row
for, in store order. -/
def getUserLikedQuotes (s : ServiceState) (userId : String) : List String :=
  ((getAllQuotes s).filter
    (fun q => (getUserLikeForQuote s q.id userId).isSome)).map (fun q => q.id)

/-- `getCollaborativeRecommendations`: score non-liked candidates by
favourite-author match (+0.3) and favourite-tag overlap (ratio × 0.2), sort
descending, truncate. -/
def getCollaborativeRecommendations (s : ServiceState) (userId : String)
    (allQuotes : List Quote) (limit : Nat) (now : Int) : List RecEntry :=
  let preferences := getUserPreferencesVal s userId now
  let userLikedQuotes := getUserLikedQuotes s userId
  (sortDescBy (fun r => r.score)
    ((allQuotes.filter (fun q => !(userLikedQuotes.contains q.id))).map (fun q =>
      let authorScore : ℚ :=
        if preferences.favoriteAuthors.contains q.author then 3/10 else 0
      let matchingTags :=
        (q.tags.filter (fun tag => preferences.favoriteTags.contains tag)).length
      let score := authorScore + ((matchingTags : ℚ) / (max q.tags.length 1 : ℚ)) * (2/10)
      ⟨q, score,
        "Based on your preferences for " ++
          String.intercalate ", " preferences.favoriteAuthors ++ " and tags: " ++
          String.intercalate ", " preferences.favoriteTags,
        min score 1⟩))).take limit

/-- `calculateContentSimilarity`: the average similarity of a candidate to
the user's liked quotes (0 for an empty liked set). -/
def calculateContentSimilarity (q : Quote) (userLikedQuotes : List String)
    (allQuotes : List Quote) : ℚ :=
  if userLikedQuotes.isEmpty then 0
  else
    let likedQuotes := allQuotes.filter (fun x => userLikedQuotes.contains x.id)
    let similarities := likedQuotes.map (fun likedQuote => calculateSimilarity q likedQuote)
    if similarities.length > 0 then similarities.sum / (similarities.length : ℚ) else 0

/-- `getContentBasedRecommendations`: content similarity × 0.6 plus +0.3
for a favourite author, sort descending, truncate. -/
def getContentBasedRecommendations (preferences : UserPreferences)
    (allQuotes : List Quote) (userLikedQuotes : List String) (limit : Nat) :
    List RecEntry :=
  (sortDescBy (fun r => r.score)
    ((allQuotes.filter (fun q => !(userLikedQuotes.contains q.id))).map (fun q =>
      let contentScore := calculateContentSimilarity q userLikedQuotes allQuotes
      let score := contentScore * (6/10) +
        (if preferences.favoriteAuthors.contains q.author then (3/10 : ℚ) else 0)
      ⟨q, score, "Based on content similarity to your liked quotes",
        min score 1⟩))).take limit

/-- JS `Array.prototype.findIndex` (first index satisfying the
predicate). -/
def firstIdxWith {α : Type} (p : α → Bool) : List α → Option Nat
  | [] => none
  | x :: xs => if p x then some 0 else (firstIdxWith p xs).map (fun i => i + 1)

/-- The elements of a list paired with their indices from `start`
(the `(rec, index)` arguments of a JS `filter` callback). -/
def withIdx {α : Type} (start : Nat) : List α → List (Nat × α)
  | [] => []
  | x :: xs => (start, x) :: withIdx (start + 1) xs

/-- The de-duplication step of `mergeRecommendations`:
`combined.filter((rec, index, self) => index === self.findIndex(r =>
r.quote.id === rec.quote.id))`. -/
def uniqueByFirstIdx (l : List RecEntry) : List RecEntry :=
  ((withIdx 0 l).filter (fun p =>
    firstIdxWith (fun r => r.quote.id == p.2.quote.id) l == some p.1)).map (fun p => p.2)

/-- `mergeRecommendations`: concatenate (collaborative first),
de-duplicate by quote id, sort descending by score, truncate. -/
def mergeRecommendations (collaborative contentBased : List RecEntry) (limit : Nat) :
    List RecEntry :=
  (sortDescBy (fun r => r.score) (uniqueByFirstIdx (collaborative ++ contentBased))).take limit

/-- The `hybrid` (default) branch of `getSmartRecommendations`: both
strategies at `Math.ceil(limit / 2)`, then `mergeRecommendations`. -/
def hybridRecommendations (s : ServiceState) (userId : String) (limit : Nat) (now : Int) :
    List RecEntry :=
  let preferences := getUserPreferencesVal s userId now
  let allQuotes := getAllQuotes s
  let userLikedQuotes := getUserLikedQuotes s userId
  let collaborative := getCollaborativeRecommendations s userId allQuotes ((limit + 1) / 2) now
  let contentBased :=
    getContentBasedRecommendations preferences allQuotes userLikedQuotes ((limit + 1) / 2)
  mergeRecommendations collaborative contentBased limit

/-- Keep the first occurrence of every quote id — the de-duplication of the
specification text, stated independently of the `findIndex` formulation. -/
def dedupByIdGo (seen : List String) : List RecEntry → List RecEntry
  | [] => []
  | r :: rs =>
    if seen.contains r.quote.id then dedupByIdGo seen rs
    else r :: dedupByIdGo (r.quote.id :: seen) rs

/-- De-duplicate recommendation entries by quote id, first occurrence
wins. -/
def dedupById (l : List RecEntry) : List RecEntry :=
  dedupByIdGo [] l

/-- The specification's reference computation for the hybrid algorithm:
collaborative and content-based each truncated to `ceil(limit / 2)`,
concatenated collaborative-first, de-duplicated by quote id keeping the
first occurrence, sorted descending by score, truncated to `limit`. -/
def referenceHybrid (s : ServiceState) (userId : String) (limit : Nat) (now : Int) :
    List RecEntry :=
  let collaborative :=
    getCollaborativeRecommendations s userId (getAllQuotes s) ((limit + 1) / 2) now
  let contentBased :=
    getContentBasedRecommendations (getUserPreferencesVal s userId now) (getAllQuotes s)
      (getUserLikedQuotes s userId) ((limit + 1) / 2)
  (sortDescBy (fun r => r.score) (dedupById (collaborative ++ contentBased))).take limit

/-! ### Trending quotes -/

/-- `getTimeRangeMs`: the `TIME_RANGES` table with a 24-hour fallback
(`all` maps to `Number.MAX_SAFE_INTEGER`). -/
def getTimeRangeMs (timeRange : String) : Int :=
  if timeRange == "1h" then 60 * 60 * 1000
  else if timeRange == "24h" then 24 * 60 * 60 * 1000
  else if timeRange == "7d" then 7 * 24 * 60 * 60 * 1000
  else if timeRange == "30d" then 30 * 24 * 60 * 60 * 1000
  else if timeRange == "all" then 9007199254740991
  else 24 * 60 * 60 * 1000

/-- `Map.set(key, count + 1)` keeping the position of an existing key. -/
def bumpCount (key : String) : List (String × Nat) → List (String × Nat)
  | [] => [(key, 1)]
  | (k, v) :: rest =>
    if k == key then (k, v + 1) :: rest else (k, v) :: bumpCount key rest

/-- The per-quote count map of `getTrendingQuotes`, in first-seen order. -/
def countsByQuoteId (events : List ActivityEvent) : List (String × Nat) :=
  events.foldl (fun acc e => bumpCount e.quoteId acc) []

/-- `getQuoteById` of the service: resolve then enrich. -/
def getQuoteByIdService (s : ServiceState) (id : String) (userId : Option String)
    (now : Int) : Option QuoteWithStats :=
  (getQuoteById s id).map (fun q => enrichQuoteWithStats s q userId now)

/-- `getTrendingQuotes`: count `QUOTE_LIKED` events inside the requested
window per quote id, sort descending by count, truncate, resolve and drop
unresolved ids. -/
def getTrendingQuotes (s : ServiceState) (limit : Nat) (timeRange : String) (now : Int) :
    List QuoteWithStats :=
  let cutoffTime := now - getTimeRangeMs timeRange
  let recentLikes := s.activityLog.filter (fun e =>
    e.type == QUOTE_LIKED && decide (e.timestamp ≥ cutoffTime))
  let trendingIds :=
    ((sortDescBy (fun p => p.2) (countsByQuoteId recentLikes)).take limit).map
      (fun p => p.1)
  trendingIds.filterMap (fun id => getQuoteByIdService s id none now)

/-! ### Remaining state-mutating operations -/

/-- `Map.set`: update in place when the key exists, append otherwise. -/
def assocSet {β : Type} (l : List (String × β)) (key : String) (v : β) :
    List (String × β) :=
  if l.any (fun e => e.1 == key) then
    l.map (fun e => if e.1 == key then (key, v) else e)
  else l ++ [(key, v)]

/-- `shareQuote`: `QuoteNotFound` for an unresolved id, else record the
share link and publish `QUOTE_SHARED` (the generated share id and the
returned URL are modelled as an input). -/
def shareQuote (s : ServiceState) (quoteId userId shareId : String) (now : Int) :
    Except String ServiceState :=
  match getQuoteById s quoteId with
  | none => .error QUOTE_NOT_FOUND
  | some _ =>
    .ok (publishActivity { s with shareLinks := assocSet s.shareLinks shareId quoteId }
      QUOTE_SHARED quoteId (some userId) now)

/-- `reportQuote`: `QuoteNotFound` for an unresolved id, else append the
report and publish `QUOTE_REPORTED`. -/
def reportQuote (s : ServiceState) (quoteId reason userId : String) (now : Int) :
    Except String ServiceState :=
  match getQuoteById s quoteId with
  | none => .error QUOTE_NOT_FOUND
  | some _ =>
    .ok (publishActivity { s with reports := s.reports ++ [⟨quoteId, reason, userId, now⟩] }
      QUOTE_REPORTED quoteId (some userId) now)

/-- The state effect of `getUserPreferences`: lazily insert the empty
default on first access. -/
def touchUserPreferences (s : ServiceState) (userId : String) (now : Int) : ServiceState :=
  match s.userPreferences.find? (fun e => e.1 == userId) with
  | some _ => s
  | none =>
    { s with userPreferences := s.userPreferences ++ [(userId, ⟨userId, [], [], [], now⟩)] }

/-- `updateUserPreferences`: replace a list only when a replacement is
supplied. -/
def updateUserPreferences (s : ServiceState) (userId : String)
    (favoriteAuthors favoriteTags : Option (List String)) (now : Int) : ServiceState :=
  let s1 := touchUserPreferences s userId now
  let preferences := getUserPreferencesVal s1 userId now
  let preferences1 :=
    { preferences with
      favoriteAuthors := favoriteAuthors.getD preferences.favoriteAuthors,
      favoriteTags := favoriteTags.getD preferences.favoriteTags }
  { s1 with userPreferences := assocSet s1.userPreferences userId preferences1 }

/-- `createCollection` (the generated id is modelled as an input). -/
def createCollection (s : ServiceState) (name : String) (description : Option String)
    (isPublic : Option Bool) (userId newId : String) (now : Int) : ServiceState :=
  let collection : QuoteCollection :=
    ⟨newId, name, description, [], now, now, isPublic.getD false, 0, userId⟩
  { s with collections := assocSet s.collections newId collection }

/-- The state effect of `getRandomQuote`: when the store is empty or the
0.3-probability refresh branch is taken (`refresh`), a successful external
fetch (`fetched`) is saved and `NEW_QUOTE_ADDED` is published with an empty
`quoteId` (the published payload `{quote}` has no `quoteId` field); a
failed fetch changes nothing (it either falls back to the stored quote or
throws `ExternalApiFailed`).  The later prioritisation step only picks the
returned quote and never mutates state. -/
def getRandomQuoteStep (s : ServiceState) (fetched : Option Quote) (refresh : Bool)
    (now : Int) : ServiceState :=
  if s.quotes.isEmpty || refresh then
    match fetched with
    | some q => publishActivity (saveQuote s q) NEW_QUOTE_ADDED "" none now
    | none => s
  else s

/-- The operations of the service that mutate state, with their
nondeterministic inputs (timestamps, random draws, generated ids, external
fetch results) made explicit. -/
inductive Op
  | like (quoteId userId : String) (now : Int)
  | unlike (quoteId userId : String) (now : Int)
  | randomQuote (fetched : Option Quote) (refresh : Bool) (now : Int)
  | share (quoteId userId shareId : String) (now : Int)
  | report (quoteId reason userId : String) (now : Int)
  | updatePrefs (userId : String) (favoriteAuthors favoriteTags : Option (List String))
      (now : Int)
  | createColl (name : String) (description : Option String) (isPublic : Option Bool)
      (userId newId : String) (now : Int)

/-- Apply one operation; a thrown error leaves the state unchanged. -/
def applyOp (s : ServiceState) : Op → ServiceState
  | .like quoteId userId now =>
    match likeQuote s quoteId userId now with
    | .ok s1 => s1
    | .error _ => s
  | .unlike quoteId userId now => unlikeQuote s quoteId userId now
  | .randomQuote fetched refresh now => getRandomQuoteStep s fetched refresh now
  | .share quoteId userId shareId now =>
    match shareQuote s quoteId userId shareId now with
    | .ok s1 => s1
    | .error _ => s
  | .report quoteId reason userId now =>
    match reportQuote s quoteId reason userId now with
    | .ok s1 => s1
    | .error _ => s
  | .updatePrefs userId favoriteAuthors favoriteTags now =>
    updateUserPreferences s userId favoriteAuthors favoriteTags now
  | .createColl name description isPublic userId newId now =>
    createCollection s name description isPublic userId newId now

/-- Apply a sequence of operations in order. -/
def applyOps (s : ServiceState) (ops : List Op) : ServiceState :=
  ops.foldl applyOp s

/-- Whether an operation is a `likeQuote` or `unlikeQuote` call. -/
def Op.isLikeUnlike : Op → Bool
  | .like _ _ _ => true
  | .unlike _ _ _ => true
  | _ => false

/-- The number of like rows a state holds for one (quoteId, userId)
pair. -/
def pairCount (s : ServiceState) (quoteId userId : String) : Nat :=
  (s.likes.filter (fun l => l.quoteId == quoteId && l.userId == userId)).length

/-- The Like-store invariant: at most one row per (quoteId, userId)
pair. -/
def LikeInvariant (s : ServiceState) : Prop :=
  ∀ quoteId userId, pairCount s quoteId userId ≤ 1

/-! ### Helper lemmas for the similarity scorer -/

theorem maxDenom_cast_pos (a b : Nat) : (0 : ℚ) < (maxDenom a b : ℚ) := by
  have h : 1 ≤ maxDenom a b := le_max_right _ 1
  exact_mod_cast Nat.lt_of_lt_of_le Nat.zero_lt_one h

/-- A `count / maxDenom` ratio with `count` bounded by the left argument is
in `[0, 1]`; scaled by a nonnegative weight it stays in `[0, weight]`. -/
theorem ratio_mul_bounds (c a b : Nat) (hc : c ≤ a) (w : ℚ) (hw : 0 ≤ w) :
    0 ≤ ((c : ℚ) / (maxDenom a b : ℚ)) * w ∧ ((c : ℚ) / (maxDenom a b : ℚ)) * w ≤ w := by
  have hb := maxDenom_cast_pos a b
  have hca : (c : ℚ) ≤ (maxDenom a b : ℚ) := by
    have h : c ≤ maxDenom a b := le_trans hc (le_trans (le_max_left a b) (le_max_left _ 1))
    exact_mod_cast h
  have hr0 : (0 : ℚ) ≤ (c : ℚ) / (maxDenom a b : ℚ) :=
    div_nonneg (by positivity) hb.le
  have hr1 : (c : ℚ) / (maxDenom a b : ℚ) ≤ 1 := (div_le_one hb).mpr hca
  refine ⟨mul_nonneg hr0 hw, ?_⟩
  calc ((c : ℚ) / (maxDenom a b : ℚ)) * w ≤ 1 * w := mul_le_mul_of_nonneg_right hr1 hw
    _ = w := one_mul w

theorem similarity_expr_bounds (A T W : ℚ) (hA : 0 ≤ A ∧ A ≤ 3/10)
    (hT : 0 ≤ T ∧ T ≤ 2/10) (hW : 0 ≤ W ∧ W ≤ 5/10) :
    0 ≤ A + T + W ∧ A + T + W ≤ 1 := by
  obtain ⟨hA0, hA1⟩ := hA
  obtain ⟨hT0, hT1⟩ := hT
  obtain ⟨hW0, hW1⟩ := hW
  exact ⟨add_nonneg (add_nonneg hA0 hT0) hW0, by linarith⟩

theorem authorTerm_bounds (x y : String) :
    0 ≤ (if x == y then (3/10 : ℚ) else 0) ∧ (if x == y then (3/10 : ℚ) else 0) ≤ 3/10 := by
  split <;> norm_num

/-- C3, main theorem.  The similarity score of any two well-formed quotes
lies in `[0, 1]`: the author term contributes at most `0.3`, the tag term at
most `0.2`, the word term at most `0.5`. -/
theorem similarity_bounded (q1 q2 : Quote)
    (hc1 : q1.content ≠ "") (ha1 : q1.author ≠ "")
    (hc2 : q2.content ≠ "") (ha2 : q2.author ≠ "") :
    0 ≤ calculateSimilarity q1 q2 ∧ calculateSimilarity q1 q2 ≤ 1 := by
  have hA := authorTerm_bounds (lowerStr q1.author) (lowerStr q2.author)
  have hT := ratio_mul_bounds
    ((q1.tags.filter (fun tag =>
      q2.tags.any (fun tag2 => lowerStr tag2 == lowerStr tag))).length)
    q1.tags.length q2.tags.length (List.length_filter_le _ _) (2/10) (by norm_num)
  have hW := ratio_mul_bounds
    (((extractWords q1.content).filter
      (fun word => (extractWords q2.content).contains word)).length)
    (extractWords q1.content).length (extractWords q2.content).length
    (List.length_filter_le _ _) (5/10) (by norm_num)
  exact similarity_expr_bounds _ _ _ hA hT hW

/-- Witness for C3 at two concrete quotes. -/
theorem similarity_bounded_witness :
    0 ≤ calculateSimilarity ⟨"1", "Life is beautiful", "Alice", ["life"], none⟩
        ⟨"2", "Life is short", "alice", ["life", "time"], none⟩ ∧
      calculateSimilarity ⟨"1", "Life is beautiful", "Alice", ["life"], none⟩
        ⟨"2", "Life is short", "alice", ["life", "time"], none⟩ ≤ 1 :=
  similarity_bounded _ _ (by decide) (by decide) (by decide) (by decide)


/-! ### Symmetry of the scorer (C9) -/

/-- Boolean string equality is symmetric. -/
theorem beq_symm_str (x y : String) : (x == y) = (y == x) := by
  by_cases h : x = y
  · subst h; rfl
  · have h1 : (x == y) = false := by simp [h]
    have h2 : (y == x) = false := by simp [Ne.symm h]
    rw [h1, h2]

theorem filter_contains_toFinset (a b : List String) :
    (a.filter (fun x => b.contains x)).toFinset = a.toFinset ∩ b.toFinset := by
  ext x
  simp [List.mem_filter, List.elem_iff]

/-- For duplicate-free lists the two one-sided overlap counts agree: both
equal the cardinality of the set intersection. -/
theorem count_inter_symm (m1 m2 : List String) (h1 : m1.Nodup) (h2 : m2.Nodup) :
    (m1.filter (fun x => m2.contains x)).length =
      (m2.filter (fun x => m1.contains x)).length := by
  have n1 : (m1.filter (fun x => m2.contains x)).Nodup := h1.filter _
  have n2 : (m2.filter (fun x => m1.contains x)).Nodup := h2.filter _
  calc (m1.filter (fun x => m2.contains x)).length
      = (m1.filter (fun x => m2.contains x)).toFinset.card :=
        (List.toFinset_card_of_nodup n1).symm
    _ = (m1.toFinset ∩ m2.toFinset).card := by rw [filter_contains_toFinset]
    _ = (m2.toFinset ∩ m1.toFinset).card := by rw [Finset.inter_comm]
    _ = (m2.filter (fun x => m1.contains x)).toFinset.card := by
        rw [filter_contains_toFinset]
    _ = (m2.filter (fun x => m1.contains x)).length := List.toFinset_card_of_nodup n2

theorem map_filter_lower (t1 : List String) (p : String → Bool) :
    (t1.map lowerStr).filter p = (t1.filter (fun x => p (lowerStr x))).map lowerStr := by
  induction t1 with
  | nil => rfl
  | cons a l ih =>
    simp only [List.map_cons, List.filter_cons]
    by_cases h : p (lowerStr a) <;> simp [h, ih]

theorem contains_map_lower (t2 : List String) (x : String) :
    (t2.map lowerStr).contains x = t2.any (fun tag2 => x == lowerStr tag2) := by
  induction t2 with
  | nil => rfl
  | cons a l ih =>
    simp only [List.map_cons, List.contains_cons, List.any_cons, ← ih]

/-- The case-insensitive tag overlap count is the overlap count of the
lowercased tag lists. -/
theorem tagcount_eq (t1 t2 : List String) :
    (t1.filter (fun tag => t2.any (fun tag2 => lowerStr tag2 == lowerStr tag))).length =
      ((t1.map lowerStr).filter (fun x => (t2.map lowerStr).contains x)).length := by
  rw [map_filter_lower, List.length_map]
  congr 1
  apply List.filter_congr
  intro tag _
  rw [contains_map_lower]
  congr 1
  funext tag2
  exact beq_symm_str _ _

theorem maxDenom_comm (a b : Nat) : maxDenom a b = maxDenom b a := by
  unfold maxDenom
  rw [max_comm a b]

/-- C9, amended theorem.  The scorer is symmetric whenever neither quote
has duplicate lowercased tags or duplicate extracted words (the overlap
counts are taken from the first argument's side, so duplicates there break
symmetry in general). -/
theorem similarity_symmetric_of_nodup (q1 q2 : Quote)
    (ht1 : (q1.tags.map lowerStr).Nodup) (ht2 : (q2.tags.map lowerStr).Nodup)
    (hw1 : (extractWords q1.content).Nodup) (hw2 : (extractWords q2.content).Nodup) :
    calculateSimilarity q1 q2 = calculateSimilarity q2 q1 := by
  unfold calculateSimilarity
  dsimp only
  have hA : (lowerStr q1.author == lowerStr q2.author) =
      (lowerStr q2.author == lowerStr q1.author) := beq_symm_str _ _
  have hT : (q1.tags.filter (fun tag =>
        q2.tags.any (fun tag2 => lowerStr tag2 == lowerStr tag))).length =
      (q2.tags.filter (fun tag =>
        q1.tags.any (fun tag2 => lowerStr tag2 == lowerStr tag))).length := by
    rw [tagcount_eq q1.tags q2.tags, tagcount_eq q2.tags q1.tags]
    exact count_inter_symm _ _ ht1 ht2
  have hW : ((extractWords q1.content).filter
        (fun word => (extractWords q2.content).contains word)).length =
      ((extractWords q2.content).filter
        (fun word => (extractWords q1.content).contains word)).length :=
    count_inter_symm _ _ hw1 hw2
  rw [hA, hT, hW, maxDenom_comm q1.tags.length q2.tags.length,
    maxDenom_comm (extractWords q1.content).length (extractWords q2.content).length]

/-- C9, counterexample.  With a duplicated significant word in the first
quote's content the scorer is not symmetric: both quotes share the author
(term 0.3) and two extracted words, but "aaa aaa" matches twice into
"aaa bbb" (word term 2/2 × 0.5) while "aaa bbb" matches only once back
(word term 1/2 × 0.5), giving 0.8 against 0.55. -/
theorem similarity_not_symmetric :
    calculateSimilarity ⟨"a", "aaa aaa", "X", [], none⟩ ⟨"b", "aaa bbb", "X", [], none⟩ ≠
      calculateSimilarity ⟨"b", "aaa bbb", "X", [], none⟩ ⟨"a", "aaa aaa", "X", [], none⟩ := by
  have h1 : extractWords "aaa aaa" = ["aaa", "aaa"] := by decide
  have h2 : extractWords "aaa bbb" = ["aaa", "bbb"] := by decide
  have h3 : decide ("bbb" = "aaa") = false := by decide
  simp only [calculateSimilarity, h1, h2]
  norm_num [maxDenom, List.filter, h3]

/-- Witness for the amended C9 at two concrete duplicate-free quotes. -/
theorem similarity_symmetric_of_nodup_witness :
    calculateSimilarity ⟨"1", "hello wide world", "X", ["wisdom", "Life"], none⟩
        ⟨"2", "hello there", "x", ["life"], none⟩ =
      calculateSimilarity ⟨"2", "hello there", "x", ["life"], none⟩
        ⟨"1", "hello wide world", "X", ["wisdom", "Life"], none⟩ :=
  similarity_symmetric_of_nodup _ _ (by decide) (by decide) (by decide) (by decide)

/-! ### Similar quotes (C2) -/

theorem enrich_id (s : ServiceState) (q : Quote) (userId : Option String) (now : Int) :
    (enrichQuoteWithStats s q userId now).id = q.id := rfl

/-- C2, main theorem.  `getSimilarQuotes` returns the empty list for an
unresolved target, never more than `limit` entries, never the target id,
and the underlying scored list is descending in similarity; the returned
list is exactly the enrichment of the scored list. -/
theorem getSimilarQuotes_spec (s : ServiceState) (quoteId : String) (limit : Nat)
    (userId : Option String) (now : Int) :
    (getQuoteById s quoteId = none → getSimilarQuotes s quoteId limit userId now = []) ∧
    (getSimilarQuotes s quoteId limit userId now).length ≤ limit ∧
    (∀ e ∈ getSimilarQuotes s quoteId limit userId now, e.id ≠ quoteId) ∧
    (getSimilarQuotesScored s quoteId limit).Pairwise (fun a b => b.2 ≤ a.2) ∧
    getSimilarQuotes s quoteId limit userId now =
      (getSimilarQuotesScored s quoteId limit).map
        (fun p => enrichQuoteWithStats s p.1 userId now) := by
  refine ⟨?_, ?_, ?_, ?_, rfl⟩
  · intro h
    simp [getSimilarQuotes, getSimilarQuotesScored, h]
  · rw [getSimilarQuotes, List.length_map]
    cases h : getQuoteById s quoteId with
    | none => simp [getSimilarQuotesScored, h]
    | some t =>
      simp only [getSimilarQuotesScored, h]
      exact le_trans (List.length_take_le _ _) (le_refl _)
  · intro e he
    simp only [getSimilarQuotes, List.mem_map] at he
    obtain ⟨p, hp, rfl⟩ := he
    cases h : getQuoteById s quoteId with
    | none => simp [getSimilarQuotesScored, h] at hp
    | some t =>
      simp only [getSimilarQuotesScored, h] at hp
      have hp2 := List.mem_of_mem_take hp
      rw [sortDescBy_mem] at hp2
      simp only [List.mem_map, List.mem_filter] at hp2
      obtain ⟨q, ⟨hq1, hq2⟩, rfl⟩ := hp2
      simpa [enrich_id] using hq2
  · cases h : getQuoteById s quoteId with
    | none => simp [getSimilarQuotesScored, h]
    | some t =>
      simp only [getSimilarQuotesScored, h]
      exact (sortDescBy_sorted _ _).sublist (List.take_sublist _ _)

/-- Witness for C2: an unresolved target id yields the empty list. -/
theorem getSimilarQuotes_spec_witness :
    getSimilarQuotes ⟨[⟨"1", "aaa", "X", [], none⟩], [], [], [], [], [], [], true⟩
      "zz" 3 none 0 = [] :=
  (getSimilarQuotes_spec ⟨[⟨"1", "aaa", "X", [], none⟩], [], [], [], [], [], [], true⟩
    "zz" 3 none 0).1 (by decide)

/-! ### Search (C6) -/

/-- C6, counterexample.  With two stored quotes and `limit = 1`, an absent
query does not return all stored quotes: the result is truncated to the
limit like every other search. -/
theorem searchQuotes_counterexample :
    (searchQuotes ⟨[⟨"1", "aaa", "X", [], none⟩, ⟨"2", "bbb", "Y", [], none⟩],
        [], [], [], [], [], [], true⟩ none 1 none 0).length ≠
      (getAllQuotes ⟨[⟨"1", "aaa", "X", [], none⟩, ⟨"2", "bbb", "Y", [], none⟩],
        [], [], [], [], [], [], true⟩).length := by decide

/-- C6, amended theorem.  An empty, all-whitespace or absent query skips
the filter (the candidate set is the whole store); every returned entry is
a candidate paired with its current like count; the ranked list is
descending by like count, has `min limit candidates` entries, and every
candidate left out has at most the like count of every entry kept
(truncation happens after sorting); the returned quotes are the enrichment
of the ranked list. -/
theorem searchQuotes_spec (s : ServiceState) (query : Option String) (limit : Nat)
    (userId : Option String) (now : Int) :
    (searchFiltered s none = getAllQuotes s) ∧
    (∀ qs, (trimStr qs).length = 0 → searchFiltered s (some qs) = getAllQuotes s) ∧
    (∀ p ∈ searchQuotesRanked s query limit,
      p.1 ∈ searchFiltered s query ∧ p.2 = (getLikesByQuoteId s p.1.id).length) ∧
    (searchQuotesRanked s query limit).Pairwise (fun a b => b.2 ≤ a.2) ∧
    (searchQuotesRanked s query limit).length = min limit (searchFiltered s query).length ∧
    (∀ q ∈ searchFiltered s query, (∀ p ∈ searchQuotesRanked s query limit, p.1 ≠ q) →
      ∀ p ∈ searchQuotesRanked s query limit, (getLikesByQuoteId s q.id).length ≤ p.2) ∧
    searchQuotes s query limit userId now =
      (searchQuotesRanked s query limit).map (fun p => enrichQuoteWithStats s p.1 userId now) := by
  refine ⟨rfl, ?_, ?_, ?_, ?_, ?_, rfl⟩
  · intro qs h
    simp [searchFiltered, h]
  · intro p hp
    have hp2 := List.mem_of_mem_take hp
    rw [searchQuotesRanked] at hp
    rw [sortDescBy_mem] at hp2
    simp only [List.mem_map] at hp2
    obtain ⟨q, hq, rfl⟩ := hp2
    exact ⟨hq, rfl⟩
  · exact (sortDescBy_sorted _ _).sublist (List.take_sublist _ _)
  · rw [searchQuotesRanked, List.length_take, sortDescBy_length, List.length_map]
  · intro q hq hnot p hp
    have hmem : (q, (getLikesByQuoteId s q.id).length) ∈
        sortDescBy (fun p : Quote × Nat => p.2) ((searchFiltered s query).map
          (fun x : Quote => (x, (getLikesByQuoteId s x.id).length))) := by
      rw [sortDescBy_mem]
      exact List.mem_map.mpr ⟨q, hq, rfl⟩
    have hsplit := List.mem_append.mp
      ((List.take_append_drop limit (sortDescBy (fun p : Quote × Nat => p.2)
        ((searchFiltered s query).map
          (fun x : Quote => (x, (getLikesByQuoteId s x.id).length))))).symm ▸ hmem)
    cases hsplit with
    | inl htake => exact absurd rfl (hnot _ htake)
    | inr hdrop =>
      exact sortDescBy_take_dominates (fun p : Quote × Nat => p.2) _ limit p hp _ hdrop

/-- Witness for the amended C6: an all-whitespace query leaves the store
unfiltered. -/
theorem searchQuotes_spec_witness :
    searchFiltered ⟨[⟨"1", "aaa", "X", [], none⟩], [], [], [], [], [], [], true⟩
        (some "  ") =
      getAllQuotes ⟨[⟨"1", "aaa", "X", [], none⟩], [], [], [], [], [], [], true⟩ :=
  (searchQuotes_spec ⟨[⟨"1", "aaa", "X", [], none⟩], [], [], [], [], [], [], true⟩
    (some "  ") 5 none 0).2.1 "  " (by decide)

/-! ### Trending score (C5) -/

/-- The specification's description of the trending numerator: the number
of `QUOTE_LIKED` events for the quote whose timestamp lies within the last
24 hours. -/
def likesInLast24h (log : List ActivityEvent) (now : Int) (quoteId : String) : Nat :=
  (log.filter (fun e =>
    e.type == QUOTE_LIKED && e.quoteId == quoteId &&
      decide (now - e.timestamp < DAY_MS))).length

/-- C5, main theorem.  The read-time trending score equals
`min(likesInLast24h / 5, 1)`; five in-window liked events give score 1, and
a quote all of whose liked events are older than 24 hours scores 0. -/
theorem trendingScore_spec (log : List ActivityEvent) (now : Int) (quoteId : String) :
    calculateTrendingScore log now quoteId =
      min ((likesInLast24h log now quoteId : ℚ) / 5) 1 ∧
    (likesInLast24h log now quoteId = 5 → calculateTrendingScore log now quoteId = 1) ∧
    ((∀ e ∈ log, e.type = QUOTE_LIKED → e.quoteId = quoteId →
        e.timestamp < now - DAY_MS) →
      calculateTrendingScore log now quoteId = 0) := by
  have hcount : calculateTrendingScore log now quoteId =
      min ((likesInLast24h log now quoteId : ℚ) / 5) 1 := by
    unfold calculateTrendingScore likesInLast24h
    have hfe : log.filter (fun e =>
        e.type == QUOTE_LIKED && e.quoteId == quoteId &&
          decide (e.timestamp > now - DAY_MS)) =
      log.filter (fun e =>
        e.type == QUOTE_LIKED && e.quoteId == quoteId &&
          decide (now - e.timestamp < DAY_MS)) := by
      apply List.filter_congr
      intro e _
      congr 1
      rw [decide_eq_decide]
      omega
    rw [hfe]
  refine ⟨hcount, ?_, ?_⟩
  · intro h5
    rw [hcount, h5]
    norm_num
  · intro hold
    have hnil : log.filter (fun e =>
        e.type == QUOTE_LIKED && e.quoteId == quoteId &&
          decide (e.timestamp > now - DAY_MS)) = [] := by
      rw [List.filter_eq_nil_iff]
      intro e he
      intro hcontra
      simp only [Bool.and_eq_true, beq_iff_eq, decide_eq_true_eq] at hcontra
      obtain ⟨⟨h1, h2⟩, h3⟩ := hcontra
      have := hold e he h1 h2
      omega
    unfold calculateTrendingScore
    rw [hnil]
    norm_num

/-- Witness for C5: five in-window liked events give trending score 1. -/
theorem trendingScore_spec_witness :
    calculateTrendingScore
      [⟨"QUOTE_LIKED", "q", some "u1", 999⟩, ⟨"QUOTE_LIKED", "q", some "u2", 998⟩,
       ⟨"QUOTE_LIKED", "q", some "u3", 997⟩, ⟨"QUOTE_LIKED", "q", some "u4", 996⟩,
       ⟨"QUOTE_LIKED", "q", some "u5", 995⟩] 1000 "q" = 1 :=
  (trendingScore_spec
    [⟨"QUOTE_LIKED", "q", some "u1", 999⟩, ⟨"QUOTE_LIKED", "q", some "u2", 998⟩,
     ⟨"QUOTE_LIKED", "q", some "u3", 997⟩, ⟨"QUOTE_LIKED", "q", some "u4", 996⟩,
     ⟨"QUOTE_LIKED", "q", some "u5", 995⟩] 1000 "q").2.1 (by decide)

/-! ### Unlike is a no-op on a missing like (C8) -/

theorem publishActivity_likes (s : ServiceState) (t q : String) (u : Option String)
    (now : Int) : (publishActivity s t q u now).likes = s.likes := by
  unfold publishActivity
  split <;> rfl

/-- C8, main theorem.  When no like row exists for the pair,
`unlikeQuote` succeeds and only the activity log can change: the whole
state equals `publishActivity` on the unchanged state, and the Like store
is untouched. -/
theorem unlikeQuote_noop (s : ServiceState) (quoteId userId : String) (now : Int)
    (h : getUserLikeForQuote s quoteId userId = none) :
    unlikeQuote s quoteId userId now =
      publishActivity s QUOTE_UNLIKED quoteId (some userId) now ∧
    (unlikeQuote s quoteId userId now).likes = s.likes := by
  have hfilter : s.likes.filter
      (fun l => !(l.quoteId == quoteId && l.userId == userId)) = s.likes := by
    rw [List.filter_eq_self]
    intro l hl
    unfold getUserLikeForQuote getLikesByQuoteId at h
    by_cases hq : l.quoteId == quoteId
    · have hl2 : l ∈ s.likes.filter (fun x => x.quoteId == quoteId) :=
        List.mem_filter.mpr ⟨hl, hq⟩
      have hu := List.find?_eq_none.mp h l hl2
      simp only [Bool.not_eq_true'] at hu ⊢
      simp [hq, hu]
    · simp [hq]
  have hrem : removeLike s quoteId userId = s := by
    unfold removeLike
    rw [hfilter]
  constructor
  · unfold unlikeQuote
    rw [hrem]
  · unfold unlikeQuote
    rw [hrem, publishActivity_likes]

/-- Witness for C8: unliking with a user who holds no like row leaves the
like rows unchanged. -/
theorem unlikeQuote_noop_witness :
    (unlikeQuote ⟨[⟨"1", "aaa", "X", [], none⟩], [⟨"1", "v", 0⟩], [], [], [], [], [], true⟩
      "1" "u" 5).likes =
    (⟨[⟨"1", "aaa", "X", [], none⟩], [⟨"1", "v", 0⟩], [], [], [], [], [], true⟩ :
      ServiceState).likes :=
  (unlikeQuote_noop ⟨[⟨"1", "aaa", "X", [], none⟩], [⟨"1", "v", 0⟩], [], [], [], [], [], true⟩
    "1" "u" 5 (by decide)).2

/-! ### Quote comparison (C7) -/

/-- The `i < j` double loop yields one entry per unordered pair. -/
theorem calcQS_length (l : List Quote) :
    (calculateQuoteSimilarities l).length = l.length.choose 2 := by
  induction l with
  | nil => rfl
  | cons q rest ih =>
    simp only [calculateQuoteSimilarities, List.length_append, List.length_map, ih,
      List.length_cons]
    rw [show (2 : Nat) = 1 + 1 from rfl, Nat.choose_succ_succ, Nat.choose_one_right]

theorem calcQS_mem (l : List Quote) :
    ∀ i j (hi : i < j) (hj : j < l.length),
      mkSimEntry (l.get ⟨i, lt_trans hi hj⟩) (l.get ⟨j, hj⟩) ∈
        calculateQuoteSimilarities l := by
  induction l with
  | nil =>
    intro i j hi hj
    exact absurd hj (Nat.not_lt_zero j)
  | cons q rest ih =>
    intro i j hi hj
    have hj1 : j < rest.length + 1 := by simpa using hj
    cases i with
    | zero =>
      cases j with
      | zero => exact absurd hi (lt_irrefl 0)
      | succ j1 =>
        apply List.mem_append_left
        exact List.mem_map.mpr ⟨rest.get ⟨j1, by omega⟩, List.get_mem _ _ _, rfl⟩
    | succ i1 =>
      cases j with
      | zero => exact absurd hi (Nat.not_lt_zero _)
      | succ j1 =>
        apply List.mem_append_right
        exact ih i1 j1 (by omega) (by omega)

/-- C7, main theorem.  `compareQuotes` fails with
`InsufficientQuotesForComparison` exactly when fewer than 2 supplied ids
resolve; otherwise it succeeds with one similarity entry per unordered pair
of the resolved quotes, and every such pair's entry is present. -/
theorem compareQuotes_spec (s : ServiceState) (quoteIds : List String)
    (includeMetrics : Bool) :
    (compareQuotes s quoteIds includeMetrics = .error QUOTE_COMPARISON_MIN ↔
      (quoteIds.filterMap (getQuoteById s)).length < 2) ∧
    (2 ≤ (quoteIds.filterMap (getQuoteById s)).length →
      ∃ res, compareQuotes s quoteIds includeMetrics = .ok res ∧
        res.quotes = quoteIds.filterMap (getQuoteById s) ∧
        res.similarities =
          calculateQuoteSimilarities (quoteIds.filterMap (getQuoteById s)) ∧
        res.similarities.length =
          (quoteIds.filterMap (getQuoteById s)).length.choose 2 ∧
        ∀ i j (hi : i < j) (hj : j < (quoteIds.filterMap (getQuoteById s)).length),
          mkSimEntry ((quoteIds.filterMap (getQuoteById s)).get ⟨i, lt_trans hi hj⟩)
              ((quoteIds.filterMap (getQuoteById s)).get ⟨j, hj⟩) ∈
            res.similarities) := by
  unfold compareQuotes
  by_cases h : (quoteIds.filterMap (getQuoteById s)).length < 2
  · rw [if_pos h]
    exact ⟨⟨fun _ => h, fun _ => rfl⟩, fun h2 => absurd h (not_lt.mpr h2)⟩
  · rw [if_neg h]
    refine ⟨⟨fun hcontra => absurd hcontra (by simp), fun h2 => absurd h2 h⟩, ?_⟩
    intro _
    exact ⟨_, rfl, rfl, rfl, calcQS_length _, fun i j hi hj => calcQS_mem _ i j hi hj⟩

/-- Witness for C7: a single id fails, two resolving ids succeed. -/
theorem compareQuotes_spec_witness :
    compareQuotes ⟨[⟨"1", "aaa", "X", [], none⟩, ⟨"2", "bbb", "Y", [], none⟩],
        [], [], [], [], [], [], true⟩ ["1"] true = .error QUOTE_COMPARISON_MIN ∧
    (∃ res, compareQuotes ⟨[⟨"1", "aaa", "X", [], none⟩, ⟨"2", "bbb", "Y", [], none⟩],
        [], [], [], [], [], [], true⟩ ["1", "2"] true = .ok res ∧
      res.quotes = (["1", "2"].filterMap (getQuoteById
        ⟨[⟨"1", "aaa", "X", [], none⟩, ⟨"2", "bbb", "Y", [], none⟩],
          [], [], [], [], [], [], true⟩)) ∧
      res.similarities = calculateQuoteSimilarities (["1", "2"].filterMap (getQuoteById
        ⟨[⟨"1", "aaa", "X", [], none⟩, ⟨"2", "bbb", "Y", [], none⟩],
          [], [], [], [], [], [], true⟩)) ∧
      res.similarities.length = (["1", "2"].filterMap (getQuoteById
        ⟨[⟨"1", "aaa", "X", [], none⟩, ⟨"2", "bbb", "Y", [], none⟩],
          [], [], [], [], [], [], true⟩)).length.choose 2 ∧
      ∀ i j (hi : i < j) (hj : j < (["1", "2"].filterMap (getQuoteById
          ⟨[⟨"1", "aaa", "X", [], none⟩, ⟨"2", "bbb", "Y", [], none⟩],
            [], [], [], [], [], [], true⟩)).length),
        mkSimEntry ((["1", "2"].filterMap (getQuoteById
            ⟨[⟨"1", "aaa", "X", [], none⟩, ⟨"2", "bbb", "Y", [], none⟩],
              [], [], [], [], [], [], true⟩)).get ⟨i, lt_trans hi hj⟩)
            ((["1", "2"].filterMap (getQuoteById
            ⟨[⟨"1", "aaa", "X", [], none⟩, ⟨"2", "bbb", "Y", [], none⟩],
              [], [], [], [], [], [], true⟩)).get ⟨j, hj⟩) ∈ res.similarities) :=
  ⟨(compareQuotes_spec ⟨[⟨"1", "aaa", "X", [], none⟩, ⟨"2", "bbb", "Y", [], none⟩],
      [], [], [], [], [], [], true⟩ ["1"] true).1.mpr (by decide),
   (compareQuotes_spec ⟨[⟨"1", "aaa", "X", [], none⟩, ⟨"2", "bbb", "Y", [], none⟩],
      [], [], [], [], [], [], true⟩ ["1", "2"] true).2 (by decide)⟩

/-! ### The at-most-one-like invariant (C1) -/

theorem pairCount_publishActivity (s : ServiceState) (t qid : String) (uo : Option String)
    (now : Int) (q u : String) :
    pairCount (publishActivity s t qid uo now) q u = pairCount s q u := by
  unfold publishActivity pairCount
  split <;> rfl

theorem pairCount_addLike_le (s : ServiceState) (like : QuoteLike) (q u : String)
    (h : LikeInvariant s) : pairCount (addLike s like) q u ≤ 1 := by
  unfold addLike
  split
  · exact h q u
  · rename_i hAny
    unfold pairCount
    show ((s.likes ++ [like]).filter (fun l => l.quoteId == q && l.userId == u)).length ≤ 1
    rw [List.filter_append, List.length_append]
    by_cases hm : (like.quoteId == q && like.userId == u) = true
    · have hqu : like.quoteId = q ∧ like.userId = u := by
        simpa using hm
      have h0 : (s.likes.filter (fun l => l.quoteId == q && l.userId == u)).length = 0 := by
        rw [List.length_eq_zero, List.filter_eq_nil_iff]
        intro l hl hcon
        apply hAny
        have hlq : l.quoteId = q ∧ l.userId = u := by simpa using hcon
        rw [List.any_eq_true]
        refine ⟨l, List.mem_filter.mpr ⟨hl, ?_⟩, ?_⟩
        · simp [hlq.1, hqu.1]
        · simp [hlq.2, hqu.2]
      rw [h0]
      simp [hm]
    · have h1 : (List.filter (fun l => l.quoteId == q && l.userId == u) [like]).length = 0 := by
        simp only [List.filter, hm]
        simp [hm]
      rw [h1]
      simpa using h q u

theorem pairCount_removeLike_le (s : ServiceState) (qid uid q u : String) :
    pairCount (removeLike s qid uid) q u ≤ pairCount s q u := by
  unfold pairCount removeLike
  exact List.Sublist.length_le ((List.filter_sublist _).filter _)

theorem saveQuote_likes (s : ServiceState) (q : Quote) : (saveQuote s q).likes = s.likes := by
  unfold saveQuote
  split <;> rfl

theorem pairCount_congr (s1 s2 : ServiceState) (h : s1.likes = s2.likes) (q u : String) :
    pairCount s1 q u = pairCount s2 q u := by
  unfold pairCount
  rw [h]

theorem applyOp_likes_unchanged (s : ServiceState) (op : Op)
    (h : op.isLikeUnlike = false) : (applyOp s op).likes = s.likes := by
  cases op with
  | like _ _ _ => simp [Op.isLikeUnlike] at h
  | unlike _ _ _ => simp [Op.isLikeUnlike] at h
  | randomQuote fetched refresh now =>
    show (getRandomQuoteStep s fetched refresh now).likes = s.likes
    unfold getRandomQuoteStep
    split
    · cases fetched with
      | none => rfl
      | some q => rw [publishActivity_likes, saveQuote_likes]
    · rfl
  | share quoteId userId shareId now =>
    show (match shareQuote s quoteId userId shareId now with
      | .ok s1 => s1 | .error _ => s).likes = s.likes
    unfold shareQuote
    cases hq : getQuoteById s quoteId with
    | none => rfl
    | some _ => rw [publishActivity_likes]
  | report quoteId reason userId now =>
    show (match reportQuote s quoteId reason userId now with
      | .ok s1 => s1 | .error _ => s).likes = s.likes
    unfold reportQuote
    cases hq : getQuoteById s quoteId with
    | none => rfl
    | some _ => rw [publishActivity_likes]
  | updatePrefs userId fa ft now =>
    show (updateUserPreferences s userId fa ft now).likes = s.likes
    unfold updateUserPreferences touchUserPreferences
    cases s.userPreferences.find? (fun e => e.1 == userId) <;> rfl
  | createColl name d p userId newId now => rfl

theorem LikeInvariant_applyOp (s : ServiceState) (op : Op) (h : LikeInvariant s) :
    LikeInvariant (applyOp s op) := by
  cases op with
  | like quoteId userId now =>
    intro q u
    show pairCount (match likeQuote s quoteId userId now with
      | .ok s1 => s1 | .error _ => s) q u ≤ 1
    unfold likeQuote
    cases hq : getQuoteById s quoteId with
    | none => exact h q u
    | some t =>
      cases hl : getUserLikeForQuote s quoteId userId with
      | some _ => exact h q u
      | none =>
        show pairCount (publishActivity (addLike s ⟨quoteId, userId, now⟩)
          QUOTE_LIKED quoteId (some userId) now) q u ≤ 1
        rw [pairCount_publishActivity]
        exact pairCount_addLike_le s _ q u h
  | unlike quoteId userId now =>
    intro q u
    show pairCount (unlikeQuote s quoteId userId now) q u ≤ 1
    unfold unlikeQuote
    rw [pairCount_publishActivity]
    exact le_trans (pairCount_removeLike_le s quoteId userId q u) (h q u)
  | randomQuote fetched refresh now =>
    intro q u
    rw [pairCount_congr _ s
      (applyOp_likes_unchanged s (Op.randomQuote fetched refresh now) rfl) q u]
    exact h q u
  | share quoteId userId shareId now =>
    intro q u
    rw [pairCount_congr _ s
      (applyOp_likes_unchanged s (Op.share quoteId userId shareId now) rfl) q u]
    exact h q u
  | report quoteId reason userId now =>
    intro q u
    rw [pairCount_congr _ s
      (applyOp_likes_unchanged s (Op.report quoteId reason userId now) rfl) q u]
    exact h q u
  | updatePrefs userId fa ft now =>
    intro q u
    rw [pairCount_congr _ s
      (applyOp_likes_unchanged s (Op.updatePrefs userId fa ft now) rfl) q u]
    exact h q u
  | createColl name d p userId newId now =>
    intro q u
    rw [pairCount_congr _ s
      (applyOp_likes_unchanged s (Op.createColl name d p userId newId now) rfl) q u]
    exact h q u

theorem LikeInvariant_applyOps (s : ServiceState) (ops : List Op) (h : LikeInvariant s) :
    LikeInvariant (applyOps s ops) := by
  induction ops generalizing s with
  | nil => exact h
  | cons op rest ih => exact ih (applyOp s op) (LikeInvariant_applyOp s op h)

theorem addLike_quotes (s : ServiceState) (like : QuoteLike) :
    (addLike s like).quotes = s.quotes := by
  unfold addLike
  split <;> rfl

theorem publishActivity_quotes (s : ServiceState) (t q : String) (u : Option String)
    (now : Int) : (publishActivity s t q u now).quotes = s.quotes := by
  unfold publishActivity
  split <;> rfl

theorem getQuoteById_congr (s1 s2 : ServiceState) (h : s1.quotes = s2.quotes)
    (id : String) : getQuoteById s1 id = getQuoteById s2 id := by
  unfold getQuoteById
  rw [h]

theorem addLike_fresh (s : ServiceState) (q u : String) (now : Int)
    (h : getUserLikeForQuote s q u = none) :
    addLike s ⟨q, u, now⟩ = { s with likes := s.likes ++ [⟨q, u, now⟩] } := by
  unfold addLike
  rw [if_neg]
  intro hAny
  rw [List.any_eq_true] at hAny
  obtain ⟨l, hl, hlu⟩ := hAny
  unfold getUserLikeForQuote getLikesByQuoteId at h
  have := List.find?_eq_none.mp h l hl
  exact this hlu

theorem pairCount_zero_of_none (s : ServiceState) (q u : String)
    (h : getUserLikeForQuote s q u = none) : pairCount s q u = 0 := by
  unfold pairCount
  rw [List.length_eq_zero, List.filter_eq_nil_iff]
  intro l hl hcon
  unfold getUserLikeForQuote getLikesByQuoteId at h
  have hlq : l.quoteId = q ∧ l.userId = u := by simpa using hcon
  have hmem : l ∈ s.likes.filter (fun x => x.quoteId == q) :=
    List.mem_filter.mpr ⟨hl, by simp [hlq.1]⟩
  have := List.find?_eq_none.mp h l hmem
  simp [hlq.2] at this

theorem likeQuote_twice (s : ServiceState) (q u : String) (now : Int)
    (hinv : LikeInvariant s) (s1 : ServiceState)
    (h : likeQuote s q u now = .ok s1) :
    (∀ now2, likeQuote s1 q u now2 = .ok s1) ∧ pairCount s1 q u = 1 := by
  unfold likeQuote at h
  cases hq : getQuoteById s q with
  | none => rw [hq] at h; exact absurd h (by simp)
  | some t =>
    rw [hq] at h
    cases hl : getUserLikeForQuote s q u with
    | some l =>
      rw [hl] at h
      have hs1 : s1 = s := by
        injection h with h2
        exact h2.symm
      subst hs1
      constructor
      · intro now2
        unfold likeQuote
        rw [hq, hl]
      · unfold getUserLikeForQuote getLikesByQuoteId at hl
        have hp := List.find?_some hl
        have hmem1 : l ∈ s1.likes.filter (fun x => x.quoteId == q) :=
          List.mem_of_find?_eq_some hl
        have hmem2 : l ∈ s1.likes.filter (fun x => x.quoteId == q && x.userId == u) := by
          rw [List.mem_filter] at hmem1 ⊢
          refine ⟨hmem1.1, ?_⟩
          simp only [Bool.and_eq_true]
          exact ⟨hmem1.2, hp⟩
        have hpos : 0 < pairCount s1 q u := List.length_pos_of_mem hmem2
        have := hinv q u
        omega
    | none =>
      rw [hl] at h
      have hs1 : s1 = publishActivity (addLike s ⟨q, u, now⟩) QUOTE_LIKED q (some u) now := by
        injection h with h2
        exact h2.symm
      have hlikes : s1.likes = s.likes ++ [⟨q, u, now⟩] := by
        rw [hs1, publishActivity_likes, addLike_fresh s q u now hl]
      have hquotes : s1.quotes = s.quotes := by
        rw [hs1, publishActivity_quotes, addLike_quotes]
      have hfind : getUserLikeForQuote s1 q u = some ⟨q, u, now⟩ := by
        unfold getUserLikeForQuote getLikesByQuoteId
        rw [hlikes, List.filter_append]
        have hnew : List.filter (fun l => l.quoteId == q) [(⟨q, u, now⟩ : QuoteLike)] =
            [⟨q, u, now⟩] := by simp
        rw [hnew, List.find?_append]
        unfold getUserLikeForQuote getLikesByQuoteId at hl
        rw [hl]
        simp
      constructor
      · intro now2
        unfold likeQuote
        rw [getQuoteById_congr s1 s hquotes q, hq, hfind]
      · have h0 : pairCount s q u = 0 := pairCount_zero_of_none s q u hl
        unfold pairCount at h0 ⊢
        rw [hlikes, List.filter_append, List.length_append, h0]
        simp

/-- C1, main theorem.  From any state satisfying the invariant, every
sequence of like/unlike operations keeps at most one like row per
(quote, user) pair; and after a successful `likeQuote` the second call
returns success leaving the state untouched, with exactly one row for the
pair. -/
theorem like_at_most_one (s : ServiceState) (q u : String) (hinv : LikeInvariant s) :
    (∀ ops : List Op, (∀ o ∈ ops, o.isLikeUnlike = true) →
      pairCount (applyOps s ops) q u ≤ 1) ∧
    (∀ now s1, likeQuote s q u now = .ok s1 →
      (∀ now2, likeQuote s1 q u now2 = .ok s1) ∧ pairCount s1 q u = 1) := by
  refine ⟨?_, ?_⟩
  · intro ops _
    exact LikeInvariant_applyOps s ops hinv q u
  · intro now s1 h
    exact likeQuote_twice s q u now hinv s1 h

/-- Witness for C1: liking twice from a one-quote store keeps a single
row; the second call on the post-like state is a successful no-op. -/
theorem like_at_most_one_witness :
    pairCount (applyOps ⟨[⟨"1", "aaa", "X", [], none⟩], [], [], [], [], [], [], false⟩
      [Op.like "1" "u" 0, Op.like "1" "u" 1]) "1" "u" ≤ 1 ∧
    ((∀ now2, likeQuote
        ⟨[⟨"1", "aaa", "X", [], none⟩], [⟨"1", "u", 0⟩], [], [], [], [], [], false⟩
        "1" "u" now2 =
      .ok ⟨[⟨"1", "aaa", "X", [], none⟩], [⟨"1", "u", 0⟩], [], [], [], [], [], false⟩) ∧
      pairCount ⟨[⟨"1", "aaa", "X", [], none⟩], [⟨"1", "u", 0⟩], [], [], [], [], [], false⟩
        "1" "u" = 1) :=
  ⟨(like_at_most_one ⟨[⟨"1", "aaa", "X", [], none⟩], [], [], [], [], [], [], false⟩
      "1" "u" (fun q u => by simp [pairCount])).1
    [Op.like "1" "u" 0, Op.like "1" "u" 1] (by decide),
   (like_at_most_one ⟨[⟨"1", "aaa", "X", [], none⟩], [], [], [], [], [], [], false⟩
      "1" "u" (fun q u => by simp [pairCount])).2 0
    ⟨[⟨"1", "aaa", "X", [], none⟩], [⟨"1", "u", 0⟩], [], [], [], [], [], false⟩ (by rfl)⟩

/-! ### Without a pubsub the activity log stays empty (C10) -/

theorem publishActivity_id (s : ServiceState) (t q : String) (u : Option String) (now : Int)
    (h : s.hasPubsub = false) : publishActivity s t q u now = s := by
  unfold publishActivity
  rw [if_neg]
  simp [h]

theorem addLike_pubsub (s : ServiceState) (l : QuoteLike) :
    (addLike s l).hasPubsub = s.hasPubsub := by
  unfold addLike
  split <;> rfl

theorem addLike_log (s : ServiceState) (l : QuoteLike) :
    (addLike s l).activityLog = s.activityLog := by
  unfold addLike
  split <;> rfl

theorem saveQuote_pubsub (s : ServiceState) (q : Quote) :
    (saveQuote s q).hasPubsub = s.hasPubsub := by
  unfold saveQuote
  split <;> rfl

theorem saveQuote_log (s : ServiceState) (q : Quote) :
    (saveQuote s q).activityLog = s.activityLog := by
  unfold saveQuote
  split <;> rfl

/-- Every append to the log goes through `publishActivity`, which is
guarded by the pubsub: a pubsub-less state keeps its log across any single
operation. -/
theorem applyOp_silent (s : ServiceState) (op : Op) (h : s.hasPubsub = false) :
    (applyOp s op).hasPubsub = false ∧ (applyOp s op).activityLog = s.activityLog := by
  cases op with
  | like q u now =>
    cases hq : getQuoteById s q with
    | none =>
      simp only [applyOp, likeQuote, hq]
      exact ⟨h, trivial⟩
    | some t =>
      cases hl : getUserLikeForQuote s q u with
      | some _ =>
        simp only [applyOp, likeQuote, hq, hl]
        exact ⟨h, trivial⟩
      | none =>
        simp only [applyOp, likeQuote, hq, hl]
        have hps : (addLike s ⟨q, u, now⟩).hasPubsub = false := by
          rw [addLike_pubsub]; exact h
        rw [publishActivity_id _ _ _ _ _ hps]
        exact ⟨hps, addLike_log s _⟩
  | unlike q u now =>
    simp only [applyOp, unlikeQuote]
    have hps : (removeLike s q u).hasPubsub = false := h
    rw [publishActivity_id _ _ _ _ _ hps]
    exact ⟨hps, rfl⟩
  | randomQuote fetched refresh now =>
    simp only [applyOp, getRandomQuoteStep]
    split
    · cases fetched with
      | none => exact ⟨h, rfl⟩
      | some q =>
        dsimp only
        have hps : (saveQuote s q).hasPubsub = false := by
          rw [saveQuote_pubsub]; exact h
        rw [publishActivity_id _ _ _ _ _ hps]
        exact ⟨hps, saveQuote_log s q⟩
    · exact ⟨h, rfl⟩
  | share q u shareId now =>
    cases hq : getQuoteById s q with
    | none =>
      simp only [applyOp, shareQuote, hq]
      exact ⟨h, trivial⟩
    | some t =>
      simp only [applyOp, shareQuote, hq]
      rw [publishActivity_id _ _ _ _ _ (by exact h)]
      exact ⟨h, rfl⟩
  | report q reason u now =>
    cases hq : getQuoteById s q with
    | none =>
      simp only [applyOp, reportQuote, hq]
      exact ⟨h, trivial⟩
    | some t =>
      simp only [applyOp, reportQuote, hq]
      rw [publishActivity_id _ _ _ _ _ (by exact h)]
      exact ⟨h, rfl⟩
  | updatePrefs u fa ft now =>
    simp only [applyOp, updateUserPreferences, touchUserPreferences]
    cases s.userPreferences.find? (fun e => e.1 == u) <;> exact ⟨h, rfl⟩
  | createColl name d p u newId now =>
    exact ⟨h, rfl⟩

theorem applyOps_silent (s : ServiceState) (ops : List Op) (h : s.hasPubsub = false) :
    (applyOps s ops).hasPubsub = false ∧
      (applyOps s ops).activityLog = s.activityLog := by
  induction ops generalizing s with
  | nil => exact ⟨h, rfl⟩
  | cons op rest ih =>
    have h1 := applyOp_silent s op h
    have h2 := ih (applyOp s op) h1.1
    exact ⟨h2.1, h2.2.trans h1.2⟩

/-- C10, main theorem.  A service instance constructed without a pubsub
keeps an empty activity log under every operation sequence, so every
trending score is 0 and the trending list is empty. -/
theorem no_pubsub_silent (s : ServiceState) (hps : s.hasPubsub = false)
    (hlog : s.activityLog = []) (ops : List Op) :
    (applyOps s ops).activityLog = [] ∧
    (∀ quoteId now, calculateTrendingScore (applyOps s ops).activityLog now quoteId = 0) ∧
    (∀ limit timeRange now, getTrendingQuotes (applyOps s ops) limit timeRange now = []) := by
  have hl : (applyOps s ops).activityLog = [] :=
    (applyOps_silent s ops hps).2.trans hlog
  refine ⟨hl, ?_, ?_⟩
  · intro quoteId now
    rw [hl]
    unfold calculateTrendingScore
    show min (((List.length [] : Nat) : ℚ) / 5) 1 = 0
    norm_num
  · intro limit timeRange now
    unfold getTrendingQuotes
    rw [hl]
    simp [countsByQuoteId, sortDescBy, List.insertionSort]

/-- Witness for C10: a pubsub-less instance logs nothing across a like, a
share and a report. -/
theorem no_pubsub_silent_witness :
    (applyOps ⟨[⟨"1", "aaa", "X", [], none⟩], [], [], [], [], [], [], false⟩
      [Op.like "1" "u" 0, Op.share "1" "u" "s1" 1,
        Op.report "1" "bad" "u" 2]).activityLog = [] :=
  (no_pubsub_silent ⟨[⟨"1", "aaa", "X", [], none⟩], [], [], [], [], [], [], false⟩
    rfl rfl [Op.like "1" "u" 0, Op.share "1" "u" "s1" 1, Op.report "1" "bad" "u" 2]).1

/-! ### Hybrid recommendations match the specification's reference
computation (C4) -/

theorem optMapSucc (o : Option Nat) (n : Nat) :
    ((o.map (fun i => i + 1)) == some (n + 1)) = (o == some n) := by
  cases o <;> simp

theorem filter_and_map_snd (l : List (Nat × RecEntry)) (A : Nat × RecEntry → Bool)
    (B : RecEntry → Bool) :
    ((l.filter (fun p => A p && B p.2)).map (fun p => p.2)) =
      ((l.filter A).map (fun p => p.2)).filter B := by
  induction l with
  | nil => rfl
  | cons p ps ih =>
    by_cases hA : A p = true
    · by_cases hB : B p.2 = true
      · simp [List.filter_cons, hA, hB, ih]
      · simp [List.filter_cons, hA, hB, ih]
    · simp [List.filter_cons, hA, ih]

theorem uniqueTail (r : RecEntry) (L : List RecEntry) :
    ∀ (rs : List RecEntry) (n : Nat),
      ((withIdx (n + 1) rs).filter (fun p =>
        firstIdxWith (fun x => x.quote.id == p.2.quote.id) (r :: L) == some p.1)).map
          (fun p => p.2) =
      ((withIdx n rs).filter (fun p =>
        (firstIdxWith (fun x => x.quote.id == p.2.quote.id) L == some p.1) &&
          !(p.2.quote.id == r.quote.id))).map (fun p => p.2) := by
  intro rs
  induction rs with
  | nil => intro n; rfl
  | cons x xs ih =>
    intro n
    simp only [withIdx, List.filter_cons]
    by_cases hrx : (r.quote.id == x.quote.id) = true
    · have hxr : (x.quote.id == r.quote.id) = true := by
        rw [beq_symm_str]; exact hrx
      have hcondL : (firstIdxWith (fun y => y.quote.id == x.quote.id) (r :: L) ==
          some (n + 1)) = false := by
        simp only [firstIdxWith, hrx, if_pos]
        simp
      have hcondR : ((firstIdxWith (fun y => y.quote.id == x.quote.id) L == some n) &&
          !(x.quote.id == r.quote.id)) = false := by
        simp [hxr]
      rw [hcondL, hcondR]
      exact ih (n + 1)
    · have hxr : (x.quote.id == r.quote.id) = false := by
        rw [beq_symm_str]
        simpa using hrx
      have hcondL : (firstIdxWith (fun y => y.quote.id == x.quote.id) (r :: L) ==
          some (n + 1)) =
          (firstIdxWith (fun y => y.quote.id == x.quote.id) L == some n) := by
        simp only [firstIdxWith, hrx, if_neg, Bool.false_eq_true, not_false_iff]
        rw [optMapSucc]
      have hcondR : ((firstIdxWith (fun y => y.quote.id == x.quote.id) L == some n) &&
          !(x.quote.id == r.quote.id)) =
          (firstIdxWith (fun y => y.quote.id == x.quote.id) L == some n) := by
        simp [hxr]
      rw [hcondL, hcondR]
      by_cases hc : (firstIdxWith (fun y => y.quote.id == x.quote.id) L == some n) = true
      · rw [hc]
        simp only [if_pos, List.map_cons]
        rw [ih (n + 1)]
      · simp only [Bool.not_eq_true] at hc
        rw [hc]
        simp only [Bool.false_eq_true, if_neg, not_false_iff]
        rw [ih (n + 1)]

/-- The `findIndex`-based de-duplication keeps the head and recurses,
filtering the head's id out of the tail's result. -/
theorem uniqueByFirstIdx_cons (r : RecEntry) (rs : List RecEntry) :
    uniqueByFirstIdx (r :: rs) =
      r :: (uniqueByFirstIdx rs).filter (fun x => !(x.quote.id == r.quote.id)) := by
  unfold uniqueByFirstIdx
  simp only [withIdx, List.filter_cons]
  have hhead : (firstIdxWith (fun x => x.quote.id == r.quote.id) (r :: rs) ==
      some 0) = true := by
    simp [firstIdxWith]
  rw [hhead]
  simp only [if_pos, List.map_cons]
  rw [uniqueTail r rs rs 0]
  rw [filter_and_map_snd (withIdx 0 rs)
    (fun p => firstIdxWith (fun x => x.quote.id == p.2.quote.id) rs == some p.1)
    (fun x => !(x.quote.id == r.quote.id))]

theorem dedupGo_congr (l : List RecEntry) :
    ∀ seen1 seen2 : List String, (∀ x, x ∈ seen1 ↔ x ∈ seen2) →
      dedupByIdGo seen1 l = dedupByIdGo seen2 l := by
  induction l with
  | nil => intro _ _ _; rfl
  | cons r rs ih =>
    intro seen1 seen2 h
    unfold dedupByIdGo
    by_cases hm : r.quote.id ∈ seen1
    · have h1 : seen1.contains r.quote.id = true := List.elem_iff.mpr hm
      have h2 : seen2.contains r.quote.id = true := List.elem_iff.mpr ((h _).mp hm)
      rw [h1, h2]
      simp only [if_pos]
      exact ih seen1 seen2 h
    · have h1 : seen1.contains r.quote.id = false := by
        simp only [Bool.eq_false_iff]
        intro hc
        exact hm (List.elem_iff.mp hc)
      have h2 : seen2.contains r.quote.id = false := by
        simp only [Bool.eq_false_iff]
        intro hc
        exact hm ((h _).mpr (List.elem_iff.mp hc))
      rw [h1, h2]
      simp only [Bool.false_eq_true, if_neg, not_false_iff]
      have hcons : ∀ x, x ∈ r.quote.id :: seen1 ↔ x ∈ r.quote.id :: seen2 := by
        intro x
        simp only [List.mem_cons]
        exact or_congr Iff.rfl (h x)
      rw [ih (r.quote.id :: seen1) (r.quote.id :: seen2) hcons]

theorem dedupGo_cons_seen (l : List RecEntry) :
    ∀ (seen : List String) (a : String),
      dedupByIdGo (a :: seen) l =
        (dedupByIdGo seen l).filter (fun x => !(x.quote.id == a)) := by
  induction l with
  | nil => intro _ _; rfl
  | cons r rs ih =>
    intro seen a
    by_cases hra : r.quote.id = a
    · have hc1 : (a :: seen).contains r.quote.id = true := by
        simp [List.elem_iff, hra]
      by_cases hseen : r.quote.id ∈ seen
      · have hc2 : seen.contains r.quote.id = true := List.elem_iff.mpr hseen
        unfold dedupByIdGo
        rw [hc1, hc2]
        simp only [if_pos]
        exact ih seen a
      · have hc2 : seen.contains r.quote.id = false := by
          simp only [Bool.eq_false_iff]
          intro hc
          exact hseen (List.elem_iff.mp hc)
        have hbeq : (r.quote.id == a) = true := by simp [hra]
        unfold dedupByIdGo
        rw [hc1, hc2]
        simp only [if_pos, Bool.false_eq_true, if_neg, not_false_iff, List.filter_cons,
          hbeq, Bool.not_true]
        rw [hra]
        rw [ih seen a]
        simp [List.filter_filter]
    · have hbeq : (r.quote.id == a) = false := by simp [hra]
      have hc1 : (a :: seen).contains r.quote.id = seen.contains r.quote.id := by
        simp only [List.contains_cons]
        rw [hbeq]
        simp
      by_cases hseen : r.quote.id ∈ seen
      · have hc2 : seen.contains r.quote.id = true := List.elem_iff.mpr hseen
        unfold dedupByIdGo
        rw [hc1, hc2]
        simp only [if_pos]
        exact ih seen a
      · have hc2 : seen.contains r.quote.id = false := by
          simp only [Bool.eq_false_iff]
          intro hc
          exact hseen (List.elem_iff.mp hc)
        unfold dedupByIdGo
        rw [hc1, hc2]
        simp only [Bool.false_eq_true, if_neg, not_false_iff, List.filter_cons, hbeq,
          Bool.not_false]
        simp only [if_pos]
        rw [← ih (r.quote.id :: seen) a]
        congr 1
        apply dedupGo_congr
        intro x
        simp only [List.mem_cons]
        tauto

/-- The code's `index === findIndex` filter equals keep-first-occurrence
de-duplication by quote id. -/
theorem uniqueByFirstIdx_eq_dedupById (l : List RecEntry) :
    uniqueByFirstIdx l = dedupById l := by
  induction l with
  | nil => rfl
  | cons r rs ih =>
    rw [uniqueByFirstIdx_cons, ih]
    have h1 : dedupById (r :: rs) = r :: dedupByIdGo [r.quote.id] rs := rfl
    rw [h1, dedupGo_cons_seen rs [] r.quote.id]
    rfl

/-- C4, main theorem.  The hybrid (default) algorithm equals the
specification's reference computation: both strategies at
`ceil(limit / 2)`, concatenated collaborative-first, de-duplicated by quote
id keeping the first occurrence, sorted descending by score, truncated to
`limit`. -/
theorem hybrid_eq_reference (s : ServiceState) (userId : String) (limit : Nat) (now : Int)
    (h : 1 ≤ limit) :
    hybridRecommendations s userId limit now = referenceHybrid s userId limit now := by
  unfold hybridRecommendations referenceHybrid mergeRecommendations
  simp only [uniqueByFirstIdx_eq_dedupById]

/-- Witness for C4 at a concrete one-quote state and `limit = 1`. -/
theorem hybrid_eq_reference_witness :
    hybridRecommendations ⟨[⟨"1", "aaa", "X", [], none⟩], [], [], [], [], [], [], true⟩
        "u" 1 0 =
      referenceHybrid ⟨[⟨"1", "aaa", "X", [], none⟩], [], [], [], [], [], [], true⟩
        "u" 1 0 :=
  hybrid_eq_reference ⟨[⟨"1", "aaa", "X", [], none⟩], [], [], [], [], [], [], true⟩
    "u" 1 0 (by decide)
